import Mathlib

/-!
# Verification of the Tarot solitaire rule engine

Shallow embedding of the game rule engine found in `src/app/page.tsx`
(primary variant) and `src/unnamed/part_000` (secondary variant, in the
`Variant` namespace where it differs).  JavaScript arrays become `List`,
with the array end (`push` / `pop` / `arr[arr.length-1]`) as the list end,
`null`-able values become `Option`, and card values are `Int` (JS numbers,
all small integers here).
-/

set_option maxHeartbeats 2000000
set_option maxRecDepth 100000

-- ═══════════════════════════════════════════════════════════════════
-- Data model (src/app/page.tsx lines 9-27, 108-118; identical in the variant)
-- ═══════════════════════════════════════════════════════════════════

inductive Suit where
  | hearts | diamonds | clubs | spades
deriving DecidableEq, Repr

inductive CardKind where
  | suit | trump | excuse
deriving DecidableEq, Repr

structure Card where
  id : String
  kind : CardKind
  suit : Option Suit
  value : Int
  faceUp : Bool
deriving DecidableEq, Repr

inductive SelectedSource where
  | col (index : Nat) (cardIndex : Nat)
  | excuse
deriving DecidableEq, Repr

inductive LastMove where
  | col (index : Nat)
  | fdn (index : Nat)
  | distribute
  | excuse
deriving DecidableEq, Repr

structure GameState where
  columns : List (List Card)
  foundations : List (List Card)
  excuseSlot : Option Card
  stock : List Card
  selected : Option SelectedSource
  gameOver : Bool
  moves : Nat
  lastMove : Option LastMove
  trumpsMerged : Bool
deriving DecidableEq, Repr

-- ═══════════════════════════════════════════════════════════════════
-- Constants and deck factory (page.tsx lines 33-55)
-- ═══════════════════════════════════════════════════════════════════

def SUITS : List Suit := [.hearts, .diamonds, .clubs, .spades]

def COL_SIZES : List Nat := [1, 2, 3, 4, 5, 6, 5, 4, 3, 2, 1]

def suitLetter : Suit → String
  | .hearts => "h"
  | .diamonds => "d"
  | .clubs => "c"
  | .spades => "s"

def createDeck : List Card :=
  (SUITS.map (fun st => (List.range 14).map (fun i =>
      { id := suitLetter st ++ toString (i + 1), kind := .suit, suit := some st,
        value := (i : Int) + 1, faceUp := false }))).flatten
  ++ (List.range 21).map (fun i =>
      { id := "t" ++ toString (i + 1), kind := .trump, suit := none,
        value := (i : Int) + 1, faceUp := false })
  ++ [{ id := "ex", kind := .excuse, suit := none, value := 0, faceUp := false }]

def isRed (c : Card) : Bool :=
  c.suit = some Suit.hearts ∨ c.suit = some Suit.diamonds

-- ═══════════════════════════════════════════════════════════════════
-- Placement rules (page.tsx lines 149-219)
-- ═══════════════════════════════════════════════════════════════════

/-- `canPlaceOnColumn` of `src/app/page.tsx` (permissive variant). -/
def canPlaceOnColumn (card : Card) (col : List Card) : Bool :=
  if card.kind = CardKind.excuse then true
  else match col.getLast? with
  | none => true
  | some top =>
    if top.kind = CardKind.excuse then true
    else if card.kind = CardKind.trump then
      top.kind = CardKind.trump ∧ card.value = top.value - 1
    else if top.kind = CardKind.suit then
      isRed card ≠ isRed top ∧ card.value = top.value - 1
    else false

def canPlaceOnFoundation (card : Card) (fi : Nat) (allFdns : List (List Card))
    (merged : Bool) : Bool :=
  let fdn := allFdns.getD fi []
  if fi < 4 then
    if card.kind ≠ CardKind.suit ∨ card.suit ≠ SUITS.get? fi then false
    else match fdn.getLast? with
      | none => card.value = 1
      | some top => card.value = top.value + 1
  else if fi = 4 then
    if card.kind ≠ CardKind.trump then false
    else if merged then false
    else match fdn.getLast? with
      | none => card.value = 1
      | some top => card.value = top.value + 1
  else if fi = 5 then
    if card.kind ≠ CardKind.trump then false
    else if merged then false
    else match fdn.getLast? with
      | none => card.value = 21
      | some top => card.value = top.value - 1
  else false

def findFoundation (card : Card) (fdns : List (List Card)) (merged : Bool) :
    Option Nat :=
  (List.range 6).find? (fun i => canPlaceOnFoundation card i fdns merged)

def canMergeTrumps (gs : GameState) : Bool :=
  if gs.trumpsMerged then false
  else
    let asc := gs.foundations.getD 4 []
    let desc := gs.foundations.getD 5 []
    match asc.getLast?, desc.getLast? with
    | some a, some d => a.value + 1 = d.value
    | _, _ => false

def isWin (gs : GameState) : Bool :=
  ((gs.foundations.getD 0 []).length = 14 ∧ (gs.foundations.getD 1 []).length = 14
    ∧ (gs.foundations.getD 2 []).length = 14 ∧ (gs.foundations.getD 3 []).length = 14)
  ∧ (gs.foundations.getD 4 []).length + (gs.foundations.getD 5 []).length = 21
  ∧ gs.excuseSlot ≠ none

-- ═══════════════════════════════════════════════════════════════════
-- State helpers (page.tsx lines 235-261)
-- ═══════════════════════════════════════════════════════════════════

/-- `revealBottom`: flips the last card of a column face-up if it is face-down. -/
def revealBottom (col : List Card) : List Card :=
  match col.getLast? with
  | none => col
  | some c => if c.faceUp then col else col.dropLast ++ [{ c with faceUp := true }]

def getSelectedCard (gs : GameState) : Option Card :=
  match gs.selected with
  | none => none
  | some .excuse => gs.excuseSlot
  | some (.col i k) => (gs.columns.getD i []).get? k

/-- `removeSelectedCards`: returns the removed run and the updated state. -/
def removeSelectedCards (gs : GameState) : List Card × GameState :=
  match gs.selected with
  | none => ([], gs)
  | some .excuse => (gs.excuseSlot.toList, { gs with excuseSlot := none })
  | some (.col i k) =>
    let col := gs.columns.getD i []
    (col.drop k, { gs with columns := gs.columns.set i (revealBottom (col.take k)) })

/-- the `isSubSeq` test inside `clickFoundation`. -/
def isSubSeqSel (gs : GameState) : Bool :=
  match gs.selected with
  | some (.col i k) => k < (gs.columns.getD i []).length - 1
  | _ => false

-- ═══════════════════════════════════════════════════════════════════
-- Initial deal (page.tsx lines 120-143)
-- ═══════════════════════════════════════════════════════════════════

/-- one column of the initial deal: only the final card is face-up. -/
def dealColumn (cards : List Card) : List Card :=
  cards.enum.map (fun p => { p.2 with faceUp := p.1 = cards.length - 1 })

def dealCols : List Nat → List Card → List (List Card) × List Card
  | [], deck => ([], deck)
  | sz :: rest, deck =>
    let r := dealCols rest (deck.drop sz)
    (dealColumn (deck.take sz) :: r.1, r.2)

def newGameState (deck : List Card) : GameState :=
  let r := dealCols COL_SIZES deck
  { columns := r.1
    foundations := [[], [], [], [], [], []]
    excuseSlot := none
    stock := r.2
    selected := none
    gameOver := false
    moves := 0
    lastMove := none
    trumpsMerged := false }

-- ═══════════════════════════════════════════════════════════════════
-- Engine operations (page.tsx lines 599-783)
-- ═══════════════════════════════════════════════════════════════════

/-- one iteration of the distribution loop: pop the stock and push the card,
face-up, onto column `i`. -/
def dealTo (s : GameState) (i : Nat) : GameState :=
  match s.stock.getLast? with
  | none => s
  | some card =>
    { s with stock := s.stock.dropLast,
             columns := s.columns.set i ((s.columns.getD i []) ++ [{ card with faceUp := true }]) }

def dealRound (targets : List Nat) (s : GameState) : GameState :=
  targets.foldl dealTo s

/-- `distribute` of `src/app/page.tsx`: deals to the first `min(|stock|, 11)`
columns unconditionally. -/
def distribute (s : GameState) : GameState :=
  if s.gameOver ∨ s.stock.length = 0 then s
  else
    let count := min s.stock.length 11
    let s2 := dealRound (List.range count) s
    { s2 with selected := none, lastMove := some .distribute }

/-- shared tail of `clickCard` / `clickColumn`: attempt to place the selected
run onto column `ci`; on failure re-select a face-up clicked card or deselect. -/
def tryPlaceOnColumn (ci cardIdx : Nat) (s : GameState) : GameState :=
  let col := s.columns.getD ci []
  match getSelectedCard s with
  | some card =>
    if canPlaceOnColumn card col then
      let r := removeSelectedCards s
      { r.2 with columns := r.2.columns.set ci ((r.2.columns.getD ci []) ++ r.1),
                 selected := none, moves := s.moves + 1, lastMove := some (.col ci) }
    else if (col.get? cardIdx).any Card.faceUp then
      { s with selected := some (.col ci cardIdx), lastMove := none }
    else { s with selected := none, lastMove := none }
  | none =>
    if (col.get? cardIdx).any Card.faceUp then
      { s with selected := some (.col ci cardIdx), lastMove := none }
    else { s with selected := none, lastMove := none }

def clickCard (ci cardIdx : Nat) (s : GameState) : GameState :=
  if s.gameOver then s
  else
    let col := s.columns.getD ci []
    match s.selected with
    | some (.col si sk) =>
      if si = ci then
        if sk = cardIdx then { s with selected := none, lastMove := none }
        else if (col.get? cardIdx).any Card.faceUp then
          { s with selected := some (.col ci cardIdx), lastMove := none }
        else { s with selected := none, lastMove := none }
      else tryPlaceOnColumn ci cardIdx s
    | some .excuse => tryPlaceOnColumn ci cardIdx s
    | none =>
      if (col.get? cardIdx).any Card.faceUp then
        { s with selected := some (.col ci cardIdx), lastMove := none }
      else s

def clickColumn (ci : Nat) (s : GameState) : GameState :=
  if s.gameOver then s
  else
    let col := s.columns.getD ci []
    match s.selected with
    | some _ =>
      if col.length = 0 then
        match getSelectedCard s with
        | some card =>
          if canPlaceOnColumn card col then
            let r := removeSelectedCards s
            { r.2 with columns := r.2.columns.set ci ((r.2.columns.getD ci []) ++ r.1),
                       selected := none, moves := s.moves + 1, lastMove := some (.col ci) }
          else { s with selected := none, lastMove := none }
        | none => { s with selected := none, lastMove := none }
      else s
    | none => s

def clickFoundation (fi : Nat) (s : GameState) : GameState :=
  if s.gameOver then s
  else match s.selected with
  | none => s
  | some _ =>
    match getSelectedCard s with
    | none => { s with selected := none }
    | some card =>
      if isSubSeqSel s ∨ ¬ canPlaceOnFoundation card fi s.foundations s.trumpsMerged then
        { s with selected := none }
      else
        let s2 := (removeSelectedCards s).2
        let s3 := { s2 with
          foundations := s2.foundations.set fi ((s2.foundations.getD fi []) ++ [card]),
          selected := none, moves := s.moves + 1, lastMove := some (.fdn fi) }
        if isWin s3 then { s3 with gameOver := true } else s3

def clickExcuseSlot (s : GameState) : GameState :=
  if s.gameOver then s
  else match s.selected with
  | some .excuse => { s with selected := none }
  | some (.col _ _) =>
    match getSelectedCard s with
    | some card =>
      if card.kind = CardKind.excuse ∧ s.excuseSlot = none then
        let s2 := (removeSelectedCards s).2
        { s2 with excuseSlot := some { card with faceUp := true },
                  selected := none, moves := s.moves + 1, lastMove := some .excuse }
      else { s with selected := none }
    | none => { s with selected := none }
  | none =>
    match s.excuseSlot with
    | some _ => { s with selected := some .excuse, lastMove := none }
    | none => s

def mergeTrumps (s : GameState) : GameState :=
  if s.gameOver ∨ ¬ canMergeTrumps s then s
  else
    let s2 := { s with
      foundations :=
        (s.foundations.set 4 ((s.foundations.getD 4 []) ++ (s.foundations.getD 5 []).reverse)).set 5 [],
      trumpsMerged := true, moves := s.moves + 1, lastMove := some (.fdn 4) }
    if isWin s2 then { s2 with gameOver := true } else s2

def autoPlace (ci : Nat) (s : GameState) : GameState :=
  if s.gameOver then s
  else
    let col := s.columns.getD ci []
    match col.getLast? with
    | none => s
    | some card =>
      if card.kind = CardKind.excuse ∧ s.excuseSlot = none then
        { s with columns := s.columns.set ci (revealBottom col.dropLast),
                 excuseSlot := some { card with faceUp := true },
                 selected := none, moves := s.moves + 1, lastMove := some .excuse }
      else match findFoundation card s.foundations s.trumpsMerged with
      | none => s
      | some fi =>
        let s2 := { s with
          columns := s.columns.set ci (revealBottom col.dropLast),
          foundations := s.foundations.set fi ((s.foundations.getD fi []) ++ [card]),
          selected := none, moves := s.moves + 1, lastMove := some (.fdn fi) }
        if isWin s2 then { s2 with gameOver := true } else s2

-- ═══════════════════════════════════════════════════════════════════
-- The second variant (src/unnamed/part_000): differs in canPlaceOnColumn
-- (lines 160-172), hasKingOnTop (109-113) and distribute (617-638).
-- ═══════════════════════════════════════════════════════════════════

namespace Variant

/-- `canPlaceOnColumn` of `src/unnamed/part_000` (strict variant). -/
def canPlaceOnColumn (card : Card) (col : List Card) : Bool :=
  if card.kind = CardKind.excuse then col.length > 0
  else match col.getLast? with
  | none => card.kind = CardKind.suit ∧ card.value = 14
  | some top =>
    if top.kind = CardKind.excuse then true
    else if card.kind = CardKind.trump then
      top.kind = CardKind.trump ∧ card.value = top.value - 1
    else if top.kind = CardKind.suit then
      isRed card ≠ isRed top ∧ card.value = top.value - 1
    else false

def hasKingOnTop (col : List Card) : Bool :=
  match col.getLast? with
  | none => false
  | some top => top.faceUp ∧ top.kind = CardKind.suit ∧ top.value = 14

def eligibleCols (s : GameState) : List Nat :=
  (List.range 11).filter (fun i => ¬ hasKingOnTop (s.columns.getD i []))

/-- `distribute` of `src/unnamed/part_000`: skips columns capped by a
face-up King. -/
def distribute (s : GameState) : GameState :=
  if s.gameOver ∨ s.stock.length = 0 then s
  else
    let eligible := eligibleCols s
    let count := min s.stock.length eligible.length
    let s2 := dealRound (eligible.take count) s
    { s2 with selected := none, lastMove := some .distribute }

end Variant

-- ═══════════════════════════════════════════════════════════════════
-- Engine API as a transition system (spec section 6)
-- ═══════════════════════════════════════════════════════════════════

/-- One engine operation with its (in-range, per spec section 7) arguments. -/
inductive Op where
  | distribute
  | clickCard (ci : Fin 11) (cardIdx : Nat)
  | clickColumn (ci : Fin 11)
  | clickFoundation (fi : Fin 6)
  | clickExcuseSlot
  | mergeTrumps
  | autoPlace (ci : Fin 11)
deriving DecidableEq, Repr

def applyOp (op : Op) (s : GameState) : GameState :=
  match op with
  | .distribute => distribute s
  | .clickCard ci cardIdx => clickCard ci.val cardIdx s
  | .clickColumn ci => clickColumn ci.val s
  | .clickFoundation fi => clickFoundation fi.val s
  | .clickExcuseSlot => clickExcuseSlot s
  | .mergeTrumps => mergeTrumps s
  | .autoPlace ci => autoPlace ci.val s

def applyOps (ops : List Op) (s : GameState) : GameState :=
  ops.foldl (fun t op => applyOp op t) s

/-- reachable from a new game: some shuffle of the canonical deck followed by
engine operations. -/
def Reachable (s : GameState) : Prop :=
  ∃ deck ops, deck.Perm createDeck ∧ s = applyOps ops (newGameState deck)

-- ═══════════════════════════════════════════════════════════════════
-- Concrete cards and the C1 counterexample trace
-- ═══════════════════════════════════════════════════════════════════

/-- a face-down suit card as produced by `createDeck`. -/
def mkSuit (st : Suit) (v : Int) : Card :=
  { id := suitLetter st ++ toString v, kind := .suit, suit := some st, value := v, faceUp := false }

/-- a face-down trump card as produced by `createDeck`. -/
def mkTrump (v : Int) : Card :=
  { id := "t" ++ toString v, kind := .trump, suit := none, value := v, faceUp := false }

/-- the Excuse as produced by `createDeck`. -/
def mkExcuse : Card :=
  { id := "ex", kind := .excuse, suit := none, value := 0, faceUp := false }

/-- a shuffle of the canonical deck on which the game can be played out by
distributing the whole stock and then auto-placing every card, the Excuse last. -/
def winDeck : List Card :=
  [mkExcuse, mkTrump 17, mkTrump 16, mkTrump 11, mkTrump 10, mkTrump 9,
   mkTrump 4, mkTrump 3, mkTrump 2, mkTrump 1,
   mkSuit .spades 10, mkSuit .spades 9, mkSuit .spades 8, mkSuit .spades 7, mkSuit .spades 6,
   mkSuit .spades 1, mkSuit .clubs 14, mkSuit .clubs 13, mkSuit .clubs 12,
   mkSuit .clubs 11, mkSuit .clubs 10,
   mkSuit .clubs 5, mkSuit .clubs 4, mkSuit .clubs 3, mkSuit .clubs 2, mkSuit .clubs 1,
   mkSuit .diamonds 10, mkSuit .diamonds 9, mkSuit .diamonds 8, mkSuit .diamonds 7,
   mkSuit .diamonds 2, mkSuit .diamonds 1, mkSuit .hearts 14,
   mkSuit .hearts 9, mkSuit .hearts 8,
   mkSuit .hearts 4,
   mkSuit .hearts 10, mkSuit .diamonds 3, mkSuit .diamonds 11, mkSuit .clubs 6,
   mkSuit .spades 2, mkSuit .spades 11, mkTrump 5, mkTrump 12, mkTrump 18,
   mkSuit .hearts 1, mkSuit .hearts 5, mkSuit .hearts 11, mkSuit .diamonds 4,
   mkSuit .diamonds 12, mkSuit .clubs 7, mkSuit .spades 3, mkSuit .spades 12,
   mkTrump 6, mkTrump 13, mkTrump 19,
   mkSuit .hearts 2, mkSuit .hearts 6, mkSuit .hearts 12, mkSuit .diamonds 5,
   mkSuit .diamonds 13, mkSuit .clubs 8, mkSuit .spades 4, mkSuit .spades 13,
   mkTrump 7, mkTrump 14, mkTrump 20,
   mkSuit .hearts 3, mkSuit .hearts 7, mkSuit .hearts 13, mkSuit .diamonds 6,
   mkSuit .diamonds 14, mkSuit .clubs 9, mkSuit .spades 5, mkSuit .spades 14,
   mkTrump 8, mkTrump 15, mkTrump 21]

/-- the play on `winDeck`: distribute the whole stock, then auto-place all 77
non-Excuse cards in foundation order. -/
def winOps : List Op :=
  [.distribute, .distribute, .distribute, .distribute]
  ++ (List.replicate 4 (Op.autoPlace 10) ++ List.replicate 5 (Op.autoPlace 9)
      ++ List.replicate 5 (Op.autoPlace 8)
      ++ List.replicate 2 (Op.autoPlace 8) ++ List.replicate 8 (Op.autoPlace 7)
      ++ List.replicate 4 (Op.autoPlace 6)
      ++ List.replicate 5 (Op.autoPlace 6) ++ List.replicate 9 (Op.autoPlace 5)
      ++ List.replicate 1 (Op.autoPlace 5) ++ List.replicate 9 (Op.autoPlace 4)
      ++ List.replicate 4 (Op.autoPlace 3)
      ++ List.replicate 4 (Op.autoPlace 3) ++ List.replicate 7 (Op.autoPlace 2)
      ++ List.replicate 6 (Op.autoPlace 1) ++ List.replicate 4 (Op.autoPlace 0))

/-- the state just before the Excuse, the last unplaced card, is stored. -/
def preWinState : GameState := applyOps winOps (newGameState winDeck)

-- ═══════════════════════════════════════════════════════════════════
-- Concrete states used by witnesses and counterexamples
-- ═══════════════════════════════════════════════════════════════════

/-- a board with everything empty (convenient record base). -/
def emptyState : GameState :=
  { columns := List.replicate 11 [], foundations := List.replicate 6 [],
    excuseSlot := none, stock := [], selected := none, gameOver := false,
    moves := 0, lastMove := none, trumpsMerged := false }

/-- a completed suit foundation pile `1..n`, bottom to top, face-up. -/
def suitRunUp (st : Suit) (n : Nat) : List Card :=
  (List.range n).map (fun i => { mkSuit st ((i : Int) + 1) with faceUp := true })

/-- ascending trump foundation pile `1..n`. -/
def trumpRunUp (n : Nat) : List Card :=
  (List.range n).map (fun i => { mkTrump ((i : Int) + 1) with faceUp := true })

/-- descending trump foundation pile `21, 20, ..., 21-n+1`. -/
def trumpRunDown (n : Nat) : List Card :=
  (List.range n).map (fun i => { mkTrump (21 - (i : Int)) with faceUp := true })

/-- a won board on which the trump foundations were never merged. -/
def wonUnmergedState : GameState :=
  { emptyState with
    foundations := [suitRunUp .hearts 14, suitRunUp .diamonds 14,
      suitRunUp .clubs 14, suitRunUp .spades 14, trumpRunUp 10, trumpRunDown 11],
    excuseSlot := some { mkExcuse with faceUp := true },
    gameOver := true }

/-- a mid-game board whose trump foundations are ready to merge. -/
def mergeableState : GameState :=
  { emptyState with
    foundations := [[], [], [], [], trumpRunUp 10, trumpRunDown 11] }

/-- a board with a selected hearts 5 and an unreceptive spades 9 column. -/
def selState : GameState :=
  { emptyState with
    columns := [[{ mkSuit .hearts 5 with faceUp := true }],
                [{ mkSuit .spades 9 with faceUp := true }]] ++ List.replicate 9 [],
    selected := some (.col 0 0) }


-- ═══════════════════════════════════════════════════════════════════
-- Claim C9: terminal states absorb every operation
-- ═══════════════════════════════════════════════════════════════════

/-- Claim C9: for every state whose terminal flag is `true`, every engine
operation other than starting a new game returns the input state unchanged. -/
theorem C9_gameOver_absorbing (s : GameState) (h : s.gameOver = true) (op : Op) :
    applyOp op s = s := by
  cases op <;>
    simp [applyOp, distribute, clickCard, clickColumn, clickFoundation,
      clickExcuseSlot, mergeTrumps, autoPlace, h]

/-- Witness for C9 at a concrete terminal state. -/
theorem C9_gameOver_absorbing_witness :
    ({ emptyState with gameOver := true } : GameState).gameOver = true
    ∧ applyOp Op.clickExcuseSlot { emptyState with gameOver := true }
        = { emptyState with gameOver := true } :=
  ⟨rfl, C9_gameOver_absorbing { emptyState with gameOver := true } rfl Op.clickExcuseSlot⟩

-- ═══════════════════════════════════════════════════════════════════
-- Claim C8: the two canPlaceOnColumn variants disagree
-- ═══════════════════════════════════════════════════════════════════

/-- Claim C8: the two `canPlaceOnColumn` variants are not extensionally equal:
they disagree on the empty column (the `page.tsx` variant accepts every card,
the `part_000` variant only a value-14 suit card), and the `part_000` variant
accepts the Excuse exactly on non-empty columns. -/
theorem C8_variants_disagree :
    (canPlaceOnColumn (mkTrump 5) [] = true ∧ Variant.canPlaceOnColumn (mkTrump 5) [] = false)
    ∧ (∀ card, canPlaceOnColumn card [] = true)
    ∧ (∀ card, Variant.canPlaceOnColumn card [] = true ↔
        card.kind = CardKind.suit ∧ card.value = 14)
    ∧ (∀ card col, card.kind = CardKind.excuse →
        (Variant.canPlaceOnColumn card col = true ↔ col ≠ [])) := by
  refine ⟨⟨by decide, by decide⟩, ?_, ?_, ?_⟩
  · intro card
    simp [canPlaceOnColumn]
  · intro card
    cases hk : card.kind <;> simp [Variant.canPlaceOnColumn, hk]
  · intro card col hk
    simp [Variant.canPlaceOnColumn, hk, List.length_pos]

/-- Witness for C8 at the Excuse card on a concrete non-empty column. -/
theorem C8_variants_disagree_witness :
    mkExcuse.kind = CardKind.excuse
    ∧ (Variant.canPlaceOnColumn mkExcuse [mkTrump 5] = true ↔ [mkTrump 5] ≠ ([] : List Card)) :=
  ⟨rfl, C8_variants_disagree.2.2.2 mkExcuse [mkTrump 5] rfl⟩

-- ═══════════════════════════════════════════════════════════════════
-- Claim C6: column placement on non-empty columns
-- ═══════════════════════════════════════════════════════════════════

/-- Claim C6 counterexample: onto a column whose top is the Trump 5 the claim
admits exactly the Trump 4, but `canPlaceOnColumn` also accepts the Excuse,
which is not a Trump. -/
theorem C6_counterexample :
    ([mkTrump 5] : List Card).getLast? = some (mkTrump 5)
    ∧ (mkTrump 5).kind = CardKind.trump
    ∧ mkExcuse.kind ≠ CardKind.trump
    ∧ canPlaceOnColumn mkExcuse [mkTrump 5] = true := by decide

/-- Claim C6 as amended: on a non-empty column whose top is a Trump the
accepted cards are the Excuse and the Trump of value `top - 1`; whose top is a
suit card, the Excuse and the opposite-colour suit card of value `top - 1`;
whose top is the Excuse, every card. -/
theorem C6_amended (card top : Card) (rest : List Card) :
    canPlaceOnColumn card (rest ++ [top]) = true ↔
      (card.kind = CardKind.excuse
        ∨ top.kind = CardKind.excuse
        ∨ (top.kind = CardKind.trump ∧ card.kind = CardKind.trump
            ∧ card.value = top.value - 1)
        ∨ (top.kind = CardKind.suit ∧ card.kind = CardKind.suit
            ∧ isRed card ≠ isRed top ∧ card.value = top.value - 1)) := by
  cases hck : card.kind <;> cases htk : top.kind <;>
    simp [canPlaceOnColumn, List.getLast?_concat, hck, htk]

-- ═══════════════════════════════════════════════════════════════════
-- Claim C4: foundation placement rule
-- ═══════════════════════════════════════════════════════════════════

/-- Claim C4: `canPlaceOnFoundation` accepts at index 0-3 exactly a suit card
of that index's suit whose value continues the pile (1 on empty); at index 4 a
trump continuing upward from 1, unless merged; at index 5 a trump continuing
downward from 21, unless merged. -/
theorem C4_canPlaceOnFoundation_spec (card : Card) (fdns : List (List Card))
    (merged : Bool) :
    (∀ fi : Fin 4,
      canPlaceOnFoundation card fi.val fdns merged = true ↔
        (card.kind = CardKind.suit ∧ card.suit = SUITS.get? fi.val ∧
          (match (fdns.getD fi.val []).getLast? with
           | none => card.value = 1
           | some top => card.value = top.value + 1)))
    ∧ (canPlaceOnFoundation card 4 fdns merged = true ↔
        (card.kind = CardKind.trump ∧ merged = false ∧
          (match (fdns.getD 4 []).getLast? with
           | none => card.value = 1
           | some top => card.value = top.value + 1)))
    ∧ (canPlaceOnFoundation card 5 fdns merged = true ↔
        (card.kind = CardKind.trump ∧ merged = false ∧
          (match (fdns.getD 5 []).getLast? with
           | none => card.value = 21
           | some top => card.value = top.value - 1))) := by
  refine ⟨?_, ?_, ?_⟩
  · intro fi
    have h4 : fi.val < 4 := fi.isLt
    simp only [canPlaceOnFoundation, if_pos h4]
    split
    · rename_i h
      constructor
      · intro hfalse; cases hfalse
      · rintro ⟨hk, hs, _⟩; exact absurd (Or.inl hk) (by tauto)
    · rename_i h
      push_neg at h
      cases hget : (fdns.getD fi.val []).getLast? <;>
        simp [hget, h.1, h.2]
  · cases hget : (fdns.getD 4 []).getLast? <;>
      cases hk : card.kind <;> cases merged <;>
        simp [canPlaceOnFoundation, hget, hk, -List.getD_eq_getElem?_getD]
  · cases hget : (fdns.getD 5 []).getLast? <;>
      cases hk : card.kind <;> cases merged <;>
        simp [canPlaceOnFoundation, hget, hk, -List.getD_eq_getElem?_getD]

-- ═══════════════════════════════════════════════════════════════════
-- Claim C5: the trump merge protocol
-- ═══════════════════════════════════════════════════════════════════

/-- Claim C5 counterexample: on a won (terminal) board whose trump foundations
were never merged, `canMergeTrumps` holds but `mergeTrumps` changes nothing, so
the claimed merge effects do not occur. -/
theorem C5_counterexample :
    canMergeTrumps wonUnmergedState = true
    ∧ (mergeTrumps wonUnmergedState).trumpsMerged = false
    ∧ (mergeTrumps wonUnmergedState).foundations.getD 5 [] ≠ []
    ∧ mergeTrumps wonUnmergedState = wonUnmergedState := by decide

/-- Claim C5 as amended (the merge effects additionally require the terminal
flag to be unset): `canMergeTrumps` holds iff not merged, both trump piles
non-empty and ascending top + 1 = descending top; on a non-terminal state
where it holds, the merge appends the reversed descending pile onto the
ascending one, empties the descending pile, sets the merged flag, and a second
merge is a no-op. -/
theorem C5_amended :
    (∀ s : GameState, canMergeTrumps s = true ↔
      (s.trumpsMerged = false ∧ ∃ a d,
        (s.foundations.getD 4 []).getLast? = some a
        ∧ (s.foundations.getD 5 []).getLast? = some d
        ∧ a.value + 1 = d.value))
    ∧ (∀ s : GameState, s.gameOver = false → canMergeTrumps s = true →
        (mergeTrumps s).foundations.getD 4 []
            = s.foundations.getD 4 [] ++ (s.foundations.getD 5 []).reverse
        ∧ ((mergeTrumps s).foundations.getD 4 []).length
            = (s.foundations.getD 4 []).length + (s.foundations.getD 5 []).length
        ∧ (mergeTrumps s).foundations.getD 5 [] = []
        ∧ (mergeTrumps s).trumpsMerged = true
        ∧ mergeTrumps (mergeTrumps s) = mergeTrumps s) := by
  have hiff : ∀ s : GameState, canMergeTrumps s = true ↔
      (s.trumpsMerged = false ∧ ∃ a d,
        (s.foundations.getD 4 []).getLast? = some a
        ∧ (s.foundations.getD 5 []).getLast? = some d
        ∧ a.value + 1 = d.value) := by
    intro s
    cases htm : s.trumpsMerged
    · cases h4 : (s.foundations.getD 4 []).getLast? <;>
        cases h5 : (s.foundations.getD 5 []).getLast? <;>
          simp [canMergeTrumps, htm, h4, h5, -List.getD_eq_getElem?_getD]
    · simp [canMergeTrumps, htm]
  refine ⟨hiff, ?_⟩
  intro s hgo hcm
  obtain ⟨htm, a, d, h4, h5, hval⟩ := (hiff s).mp hcm
  have hlen : 5 < s.foundations.length := by
    by_contra hle
    push_neg at hle
    rw [List.getD_eq_default _ _ hle] at h5
    simp at h5
  have h4lt : 4 < s.foundations.length := by omega
  have hguard : ¬ (s.gameOver = true ∨ ¬ canMergeTrumps s = true) := by
    simp [hgo, hcm]
  have hfdn : (mergeTrumps s).foundations =
      (s.foundations.set 4 ((s.foundations.getD 4 []) ++ (s.foundations.getD 5 []).reverse)).set 5 [] := by
    rw [mergeTrumps, if_neg hguard]
    dsimp only
    split <;> rfl
  have htm2 : (mergeTrumps s).trumpsMerged = true := by
    rw [mergeTrumps, if_neg hguard]
    dsimp only
    split <;> rfl
  have hget4 : (mergeTrumps s).foundations.getD 4 []
      = s.foundations.getD 4 [] ++ (s.foundations.getD 5 []).reverse := by
    rw [hfdn, List.getD_eq_getElem?_getD, List.getElem?_set_ne (by omega),
      List.getElem?_set_self (by simpa using h4lt)]
    rfl
  have hget5 : (mergeTrumps s).foundations.getD 5 [] = [] := by
    rw [hfdn, List.getD_eq_getElem?_getD, List.getElem?_set_self (by simpa using hlen)]
    rfl
  refine ⟨hget4, ?_, hget5, htm2, ?_⟩
  · rw [hget4]
    simp
  · rw [mergeTrumps, if_pos]
    right
    simp [canMergeTrumps, htm2]

/-- Witness for C5 at a concrete mergeable, non-terminal state. -/
theorem C5_amended_witness :
    mergeableState.gameOver = false
    ∧ canMergeTrumps mergeableState = true
    ∧ ((mergeTrumps mergeableState).foundations.getD 4 []
          = mergeableState.foundations.getD 4 []
            ++ (mergeableState.foundations.getD 5 []).reverse
        ∧ ((mergeTrumps mergeableState).foundations.getD 4 []).length
            = (mergeableState.foundations.getD 4 []).length
              + (mergeableState.foundations.getD 5 []).length
        ∧ (mergeTrumps mergeableState).foundations.getD 5 [] = []
        ∧ (mergeTrumps mergeableState).trumpsMerged = true
        ∧ mergeTrumps (mergeTrumps mergeableState) = mergeTrumps mergeableState) :=
  ⟨rfl, by decide, C5_amended.2 mergeableState rfl (by decide)⟩

-- ═══════════════════════════════════════════════════════════════════
-- Claim C2: rejected moves
-- ═══════════════════════════════════════════════════════════════════

/-- the acceptance test of the column-placement attempt inside
`clickCard`/`clickColumn`. -/
def columnMoveAccepts (s : GameState) (col : List Card) : Bool :=
  match getSelectedCard s with
  | none => false
  | some card => canPlaceOnColumn card col

/-- the acceptance test inside `clickFoundation`. -/
def foundationMoveAccepts (s : GameState) (fi : Nat) : Bool :=
  match getSelectedCard s with
  | none => false
  | some card =>
    if isSubSeqSel s ∨ ¬ canPlaceOnFoundation card fi s.foundations s.trumpsMerged then
      false
    else true

/-- the acceptance test inside `clickExcuseSlot`. -/
def excuseStoreAccepts (s : GameState) : Bool :=
  match s.selected with
  | some (.col _ _) =>
    (match getSelectedCard s with
     | some card => if card.kind = CardKind.excuse ∧ s.excuseSlot = none then true else false
     | none => false)
  | _ => false

/-- what actually happens on a rejected move: authoritative fields untouched,
selection cleared or re-targeted to the clicked column card. -/
def RejectedOutcome (s r : GameState) (ci cardIdx : Nat) : Prop :=
  r.columns = s.columns ∧ r.foundations = s.foundations ∧ r.excuseSlot = s.excuseSlot
  ∧ r.stock = s.stock ∧ r.moves = s.moves ∧ r.gameOver = s.gameOver
  ∧ (r.selected = none ∨ r.selected = some (.col ci cardIdx))

lemma tryPlaceOnColumn_reject (s : GameState) (ci cardIdx : Nat)
    (hacc : columnMoveAccepts s (s.columns.getD ci []) = false) :
    RejectedOutcome s (tryPlaceOnColumn ci cardIdx s) ci cardIdx := by
  cases hc : getSelectedCard s with
  | none =>
    rw [tryPlaceOnColumn]
    dsimp only
    rw [hc]
    dsimp only
    split <;> exact ⟨rfl, rfl, rfl, rfl, rfl, rfl, by simp⟩
  | some card =>
    rw [columnMoveAccepts, hc] at hacc
    dsimp only at hacc
    have hcond : ¬ (canPlaceOnColumn card (s.columns.getD ci []) = true) := by
      rw [hacc]
      simp
    rw [tryPlaceOnColumn]
    dsimp only
    rw [hc]
    dsimp only
    rw [if_neg hcond]
    split <;> exact ⟨rfl, rfl, rfl, rfl, rfl, rfl, by simp⟩

/-- Claim C2 counterexample: with the hearts 5 selected, clicking the face-up
spades 9 (an illegal target: wrong rank) re-selects the spades 9 instead of
merely clearing the selection. -/
theorem C2_counterexample :
    selState.selected = some (SelectedSource.col 0 0)
    ∧ canPlaceOnColumn { mkSuit .hearts 5 with faceUp := true }
        (selState.columns.getD 1 []) = false
    ∧ (clickCard 1 0 selState).selected = some (SelectedSource.col 1 0) := by decide

/-- Claim C2 as amended: on a rejected move the authoritative fields (columns,
foundations, Excuse slot, stock, move counter, terminal flag) never change;
foundation and Excuse-slot rejections exactly clear the selection, empty-column
rejections clear the selection and the transient last-move marker, and a
rejected column click either clears the selection or re-selects the clicked
face-up card. -/
theorem C2_amended (s : GameState) (sel : SelectedSource)
    (hsel : s.selected = some sel) (hgo : s.gameOver = false) :
    (∀ fi, foundationMoveAccepts s fi = false →
      clickFoundation fi s = { s with selected := none })
    ∧ (excuseStoreAccepts s = false →
      clickExcuseSlot s = { s with selected := none })
    ∧ (∀ ci, (s.columns.getD ci []).length = 0 →
        columnMoveAccepts s (s.columns.getD ci []) = false →
        clickColumn ci s = { s with selected := none, lastMove := none })
    ∧ (∀ ci cardIdx, columnMoveAccepts s (s.columns.getD ci []) = false →
        RejectedOutcome s (clickCard ci cardIdx s) ci cardIdx) := by
  have hgo2 : ¬ (s.gameOver = true) := by simp [hgo]
  refine ⟨?_, ?_, ?_, ?_⟩
  · intro fi hacc
    rw [clickFoundation, if_neg hgo2, hsel]
    dsimp only
    cases hc : getSelectedCard s with
    | none => rfl
    | some card =>
      rw [foundationMoveAccepts, hc] at hacc
      dsimp only at hacc
      dsimp only
      split at hacc
      · rename_i hcond
        rw [if_pos hcond]
      · simp at hacc
  · intro hacc
    rw [excuseStoreAccepts, hsel] at hacc
    rw [clickExcuseSlot, if_neg hgo2, hsel]
    cases sel with
    | excuse => rfl
    | col si sk =>
      dsimp only at hacc ⊢
      cases hc : getSelectedCard s with
      | none => rfl
      | some card =>
        rw [hc] at hacc
        try dsimp only at hacc
        try dsimp only
        split at hacc
        · simp at hacc
        · rename_i hcond
          rw [if_neg hcond]
  · intro ci hlen hacc
    rw [clickColumn, if_neg hgo2, hsel]
    dsimp only
    rw [if_pos hlen]
    cases hc : getSelectedCard s with
    | none => rfl
    | some card =>
      rw [columnMoveAccepts, hc] at hacc
      dsimp only at hacc
      have hcond : ¬ (canPlaceOnColumn card (s.columns.getD ci []) = true) := by
        rw [hacc]
        simp
      dsimp only
      rw [if_neg hcond]
  · intro ci cardIdx hacc
    rw [clickCard, if_neg hgo2, hsel]
    cases sel with
    | excuse => exact tryPlaceOnColumn_reject s ci cardIdx hacc
    | col si sk =>
      dsimp only
      by_cases hsi : si = ci
      · subst hsi
        rw [if_pos rfl]
        by_cases hsk : sk = cardIdx
        · subst hsk
          rw [if_pos rfl]
          exact ⟨rfl, rfl, rfl, rfl, rfl, rfl, by simp⟩
        · rw [if_neg hsk]
          split <;> exact ⟨rfl, rfl, rfl, rfl, rfl, rfl, by simp⟩
      · rw [if_neg hsi]
        exact tryPlaceOnColumn_reject s ci cardIdx hacc

/-- Witness for C2 at the concrete selected state, rejected foundation move. -/
theorem C2_amended_witness :
    selState.selected = some (SelectedSource.col 0 0)
    ∧ selState.gameOver = false
    ∧ foundationMoveAccepts selState 0 = false
    ∧ clickFoundation 0 selState = { selState with selected := none } :=
  ⟨rfl, rfl, by decide,
    (C2_amended selState (SelectedSource.col 0 0) rfl rfl).1 0 (by decide)⟩

-- ═══════════════════════════════════════════════════════════════════
-- Distribution machinery (claims C7, C10)
-- ═══════════════════════════════════════════════════════════════════

lemma getD_set_ne {α : Type} (l : List α) (i j : Nat) (x d : α) (h : i ≠ j) :
    (l.set i x).getD j d = l.getD j d := by
  rw [List.getD_eq_getElem?_getD, List.getD_eq_getElem?_getD, List.getElem?_set_ne h]

lemma getD_set_self {α : Type} (l : List α) (i : Nat) (x d : α) (h : i < l.length) :
    (l.set i x).getD i d = x := by
  rw [List.getD_eq_getElem?_getD, List.getElem?_set_self h]
  rfl

lemma getElem?_dropLast {α : Type} (l : List α) (m : Nat) (h : m < l.length - 1) :
    l.dropLast[m]? = l[m]? := by
  rw [List.dropLast_eq_take, List.getElem?_take]
  simp [h]

lemma dealTo_eq (s : GameState) (i : Nat) (card : Card)
    (h : s.stock.getLast? = some card) :
    dealTo s i = { s with
      stock := s.stock.dropLast,
      columns := s.columns.set i ((s.columns.getD i []) ++ [{ card with faceUp := true }]) } := by
  rw [dealTo, h]

lemma dealRound_cons (t : Nat) (ts : List Nat) (s : GameState) :
    dealRound (t :: ts) s = dealRound ts (dealTo s t) := rfl

/-- main loop invariant of the distribution: dealing to pairwise-distinct
in-range columns removes the dealt suffix from the stock and appends exactly
one face-up card, taken from the stock end in order, to each target column. -/
lemma dealRound_spec (targets : List Nat) (s : GameState)
    (hnd : targets.Nodup) (hlt : ∀ i ∈ targets, i < s.columns.length)
    (hlen : targets.length ≤ s.stock.length) :
    (dealRound targets s).stock = s.stock.take (s.stock.length - targets.length)
    ∧ (dealRound targets s).columns.length = s.columns.length
    ∧ (∀ j, j ∉ targets → (dealRound targets s).columns.getD j [] = s.columns.getD j [])
    ∧ (∀ k t, targets[k]? = some t →
        ∃ c, s.stock[s.stock.length - 1 - k]? = some c
          ∧ (dealRound targets s).columns.getD t []
              = s.columns.getD t [] ++ [{ c with faceUp := true }]) := by
  induction targets generalizing s with
  | nil =>
    refine ⟨by simp [dealRound], rfl, fun j _ => rfl, fun k t hkt => by simp at hkt⟩
  | cons t ts ih =>
    have hne : s.stock ≠ [] := by
      intro hempty
      rw [hempty] at hlen
      simp at hlen
    obtain ⟨last, hlast⟩ : ∃ c, s.stock.getLast? = some c := by
      cases h : s.stock.getLast? with
      | none => exact absurd (List.getLast?_eq_none_iff.mp h) hne
      | some c => exact ⟨c, rfl⟩
    have hstep : dealTo s t = { s with
        stock := s.stock.dropLast,
        columns := s.columns.set t ((s.columns.getD t []) ++ [{ last with faceUp := true }]) } :=
      dealTo_eq s t last hlast
    have htts : t ∉ ts := (List.nodup_cons.mp hnd).1
    have hndts : ts.Nodup := (List.nodup_cons.mp hnd).2
    have hstock1 : (dealTo s t).stock = s.stock.dropLast := by rw [hstep]
    have hcols1 : (dealTo s t).columns
        = s.columns.set t ((s.columns.getD t []) ++ [{ last with faceUp := true }]) := by
      rw [hstep]
    have hcl1 : (dealTo s t).columns.length = s.columns.length := by
      rw [hcols1, List.length_set]
    have hlts : ∀ i ∈ ts, i < (dealTo s t).columns.length := by
      intro i hi
      rw [hcl1]
      exact hlt i (List.mem_cons_of_mem t hi)
    have hlents : ts.length ≤ (dealTo s t).stock.length := by
      rw [hstock1, List.length_dropLast]
      have hh := hlen
      simp only [List.length_cons] at hh
      omega
    obtain ⟨ihstock, ihlen, ihother, ihtarget⟩ := ih (dealTo s t) hndts hlts hlents
    refine ⟨?_, ?_, ?_, ?_⟩
    · rw [dealRound_cons, ihstock, hstock1, List.length_dropLast,
        List.dropLast_eq_take, List.take_take]
      congr 1
      simp only [List.length_cons]
      omega
    · rw [dealRound_cons, ihlen, hcl1]
    · intro j hj
      have hjt : j ≠ t := fun h => hj (h ▸ List.mem_cons_self t ts)
      have hjts : j ∉ ts := fun h => hj (List.mem_cons_of_mem t h)
      rw [dealRound_cons, ihother j hjts, hcols1,
        getD_set_ne _ _ _ _ _ (fun h => hjt h.symm)]
    · intro k t' hkt
      cases k with
      | zero =>
        simp only [List.getElem?_cons_zero, Option.some.injEq] at hkt
        subst hkt
        refine ⟨last, ?_, ?_⟩
        · have hidx : s.stock.length - 1 - 0 = s.stock.length - 1 := by omega
          rw [hidx, ← List.getLast?_eq_getElem?]
          exact hlast
        · rw [dealRound_cons, ihother t htts, hcols1,
            getD_set_self _ _ _ _ (hlt t (List.mem_cons_self t ts))]
      | succ k =>
        simp only [List.getElem?_cons_succ] at hkt
        obtain ⟨c, hc, hcol⟩ := ihtarget k t' hkt
        have ht' : t' ∈ ts := List.getElem?_mem hkt
        have ht'ne : t' ≠ t := fun h => htts (h ▸ ht')
        have hklt : k < ts.length := by
          by_contra hk
          push_neg at hk
          rw [List.getElem?_eq_none (by simpa using hk)] at hkt
          cases hkt
        have hlen2 : ts.length + 1 ≤ s.stock.length := by simpa using hlen
        refine ⟨c, ?_, ?_⟩
        · rw [hstock1, List.length_dropLast] at hc
          have hidx : s.stock.length - 1 - 1 - k = s.stock.length - 1 - (k + 1) := by omega
          rw [hidx] at hc
          rw [getElem?_dropLast s.stock (s.stock.length - 1 - (k + 1)) (by omega)] at hc
          exact hc
        · rw [dealRound_cons, hcol, hcols1,
            getD_set_ne _ _ _ _ _ (fun h => ht'ne h.symm)]

lemma eligibleCols_nodup (s : GameState) : (Variant.eligibleCols s).Nodup :=
  List.Nodup.filter _ (List.nodup_range 11)

lemma eligibleCols_lt (s : GameState) (i : Nat) (hi : i ∈ Variant.eligibleCols s) :
    i < 11 :=
  List.mem_range.mp (List.mem_of_mem_filter hi)

/-- Claim C7: on a non-terminal state, `distribute` deals exactly
`min(|stock|, #eligible)` cards, one onto each of the first that-many eligible
columns in ascending index order, each face-up on top; with an empty stock it
is a no-op.  Both variants are covered: in `page.tsx` every column is eligible,
in `part_000` the columns without a face-up King on top. -/
theorem C7_distribute_spec (s : GameState) (h11 : s.columns.length = 11)
    (hgo : s.gameOver = false) :
    (s.stock = [] → distribute s = s ∧ Variant.distribute s = s)
    ∧ ((distribute s).stock.length = s.stock.length - min s.stock.length 11
      ∧ (∀ i, i < min s.stock.length 11 →
          ∃ c, (distribute s).columns.getD i [] = s.columns.getD i [] ++ [c]
            ∧ c.faceUp = true)
      ∧ (∀ i, min s.stock.length 11 ≤ i →
          (distribute s).columns.getD i [] = s.columns.getD i []))
    ∧ ((Variant.distribute s).stock.length
          = s.stock.length - min s.stock.length (Variant.eligibleCols s).length
      ∧ (∀ (k t : Nat), ((Variant.eligibleCols s).take
            (min s.stock.length (Variant.eligibleCols s).length))[k]? = some t →
          ∃ c, (Variant.distribute s).columns.getD t [] = s.columns.getD t [] ++ [c]
            ∧ c.faceUp = true)
      ∧ (∀ j, j ∉ (Variant.eligibleCols s).take
            (min s.stock.length (Variant.eligibleCols s).length) →
          (Variant.distribute s).columns.getD j [] = s.columns.getD j [])) := by
  by_cases hstock : s.stock.length = 0
  · have hempty : s.stock = [] := List.length_eq_zero.mp hstock
    have hd : distribute s = s := by rw [distribute, if_pos (Or.inr hstock)]
    have hdv : Variant.distribute s = s := by
      rw [Variant.distribute, if_pos (Or.inr hstock)]
    refine ⟨fun _ => ⟨hd, hdv⟩, ⟨?_, ?_, ?_⟩, ⟨?_, ?_, ?_⟩⟩
    · rw [hd]; omega
    · intro i hi; rw [hstock] at hi; simp at hi
    · intro i _; rw [hd]
    · rw [hdv]; omega
    · intro k t hkt; rw [hstock] at hkt; simp at hkt
    · intro j _; rw [hdv]
  · have hguard : ¬ (s.gameOver = true ∨ s.stock.length = 0) := by
      simp [hgo, hstock]
    have hd : distribute s = { dealRound (List.range (min s.stock.length 11)) s with
        selected := none, lastMove := some .distribute } := by
      rw [distribute, if_neg hguard]
    have hdv : Variant.distribute s = { dealRound ((Variant.eligibleCols s).take
          (min s.stock.length (Variant.eligibleCols s).length)) s with
        selected := none, lastMove := some .distribute } := by
      rw [Variant.distribute, if_neg hguard]
    obtain ⟨hst, _, hother, htarget⟩ :=
      dealRound_spec (List.range (min s.stock.length 11)) s
        (List.nodup_range _)
        (fun i hi => by
          have := List.mem_range.mp hi
          omega)
        (by simp)
    obtain ⟨hstv, _, hotherv, htargetv⟩ :=
      dealRound_spec ((Variant.eligibleCols s).take
          (min s.stock.length (Variant.eligibleCols s).length)) s
        (List.Nodup.sublist (List.take_sublist _ _) (eligibleCols_nodup s))
        (fun i hi => by
          have := eligibleCols_lt s i (List.mem_of_mem_take hi)
          omega)
        (by
          rw [List.length_take]
          omega)
    refine ⟨fun hempty => absurd (by rw [hempty]; rfl) hstock, ⟨?_, ?_, ?_⟩, ⟨?_, ?_, ?_⟩⟩
    · have : (distribute s).stock = (dealRound (List.range (min s.stock.length 11)) s).stock := by
        rw [hd]
      rw [this, hst, List.length_take, List.length_range]
      omega
    · intro i hi
      obtain ⟨c, _, hcol⟩ := htarget i i (by rw [List.getElem?_range hi])
      refine ⟨{ c with faceUp := true }, ?_, rfl⟩
      have : (distribute s).columns = (dealRound (List.range (min s.stock.length 11)) s).columns := by
        rw [hd]
      rw [this, List.length_range] at *
      rw [hcol]
    · intro i hi
      have : (distribute s).columns = (dealRound (List.range (min s.stock.length 11)) s).columns := by
        rw [hd]
      rw [this]
      exact hother i (by simp; omega)
    · have : (Variant.distribute s).stock = (dealRound ((Variant.eligibleCols s).take
          (min s.stock.length (Variant.eligibleCols s).length)) s).stock := by
        rw [hdv]
      rw [this, hstv, List.length_take, List.length_take]
      omega
    · intro k t hkt
      obtain ⟨c, _, hcol⟩ := htargetv k t hkt
      refine ⟨{ c with faceUp := true }, ?_, rfl⟩
      have : (Variant.distribute s).columns = (dealRound ((Variant.eligibleCols s).take
          (min s.stock.length (Variant.eligibleCols s).length)) s).columns := by
        rw [hdv]
      rw [this, hcol]
    · intro j hj
      have : (Variant.distribute s).columns = (dealRound ((Variant.eligibleCols s).take
          (min s.stock.length (Variant.eligibleCols s).length)) s).columns := by
        rw [hdv]
      rw [this]
      exact hotherv j hj

/-- Witness for C7 at a concrete freshly dealt game. -/
theorem C7_distribute_spec_witness :
    (newGameState createDeck).columns.length = 11
    ∧ (newGameState createDeck).gameOver = false
    ∧ (distribute (newGameState createDeck)).stock.length
        = (newGameState createDeck).stock.length
          - min (newGameState createDeck).stock.length 11 :=
  ⟨by decide, rfl, (C7_distribute_spec (newGameState createDeck) (by decide) rfl).2.1.1⟩

/-- Claim C10: the cards dealt by `distribute` are exactly the last `k`
elements of the stock, in reverse order — the stock's last element goes to the
first eligible column, and so on — and the remaining stock is the unchanged
prefix of the old stock.  Both variants are covered. -/
theorem C10_distribute_from_stock_end (s : GameState) (h11 : s.columns.length = 11)
    (hgo : s.gameOver = false) :
    ((distribute s).stock = s.stock.take (s.stock.length - min s.stock.length 11)
      ∧ (∀ i, i < min s.stock.length 11 →
          ∃ c, s.stock[s.stock.length - 1 - i]? = some c
            ∧ (distribute s).columns.getD i []
                = s.columns.getD i [] ++ [{ c with faceUp := true }]))
    ∧ ((Variant.distribute s).stock = s.stock.take
          (s.stock.length - min s.stock.length (Variant.eligibleCols s).length)
      ∧ (∀ (k t : Nat), ((Variant.eligibleCols s).take
            (min s.stock.length (Variant.eligibleCols s).length))[k]? = some t →
          ∃ c, s.stock[s.stock.length - 1 - k]? = some c
            ∧ (Variant.distribute s).columns.getD t []
                = s.columns.getD t [] ++ [{ c with faceUp := true }])) := by
  by_cases hstock : s.stock.length = 0
  · have hempty : s.stock = [] := List.length_eq_zero.mp hstock
    have hd : distribute s = s := by rw [distribute, if_pos (Or.inr hstock)]
    have hdv : Variant.distribute s = s := by
      rw [Variant.distribute, if_pos (Or.inr hstock)]
    refine ⟨⟨?_, ?_⟩, ⟨?_, ?_⟩⟩
    · rw [hd, hempty]; simp
    · intro i hi; rw [hstock] at hi; simp at hi
    · rw [hdv, hempty]; simp
    · intro k t hkt; rw [hstock] at hkt; simp at hkt
  · have hguard : ¬ (s.gameOver = true ∨ s.stock.length = 0) := by
      simp [hgo, hstock]
    have hd : distribute s = { dealRound (List.range (min s.stock.length 11)) s with
        selected := none, lastMove := some .distribute } := by
      rw [distribute, if_neg hguard]
    have hdv : Variant.distribute s = { dealRound ((Variant.eligibleCols s).take
          (min s.stock.length (Variant.eligibleCols s).length)) s with
        selected := none, lastMove := some .distribute } := by
      rw [Variant.distribute, if_neg hguard]
    obtain ⟨hst, _, _, htarget⟩ :=
      dealRound_spec (List.range (min s.stock.length 11)) s
        (List.nodup_range _)
        (fun i hi => by
          have := List.mem_range.mp hi
          omega)
        (by simp)
    obtain ⟨hstv, _, _, htargetv⟩ :=
      dealRound_spec ((Variant.eligibleCols s).take
          (min s.stock.length (Variant.eligibleCols s).length)) s
        (List.Nodup.sublist (List.take_sublist _ _) (eligibleCols_nodup s))
        (fun i hi => by
          have := eligibleCols_lt s i (List.mem_of_mem_take hi)
          omega)
        (by
          rw [List.length_take]
          omega)
    refine ⟨⟨?_, ?_⟩, ⟨?_, ?_⟩⟩
    · have heq : (distribute s).stock
          = (dealRound (List.range (min s.stock.length 11)) s).stock := by
        rw [hd]
      rw [heq, hst, List.length_range]
    · intro i hi
      obtain ⟨c, hcstock, hcol⟩ := htarget i i (by rw [List.getElem?_range hi])
      refine ⟨c, hcstock, ?_⟩
      have heq : (distribute s).columns
          = (dealRound (List.range (min s.stock.length 11)) s).columns := by
        rw [hd]
      rw [heq, hcol]
    · have heq : (Variant.distribute s).stock = (dealRound ((Variant.eligibleCols s).take
          (min s.stock.length (Variant.eligibleCols s).length)) s).stock := by
        rw [hdv]
      rw [heq, hstv, List.length_take]
      congr 1
      omega
    · intro k t hkt
      obtain ⟨c, hcstock, hcol⟩ := htargetv k t hkt
      refine ⟨c, hcstock, ?_⟩
      have heq : (Variant.distribute s).columns = (dealRound ((Variant.eligibleCols s).take
          (min s.stock.length (Variant.eligibleCols s).length)) s).columns := by
        rw [hdv]
      rw [heq, hcol]

/-- Witness for C10 at a concrete freshly dealt game. -/
theorem C10_distribute_from_stock_end_witness :
    (newGameState createDeck).columns.length = 11
    ∧ (newGameState createDeck).gameOver = false
    ∧ (distribute (newGameState createDeck)).stock
        = (newGameState createDeck).stock.take
            ((newGameState createDeck).stock.length
              - min (newGameState createDeck).stock.length 11) :=
  ⟨by decide, rfl,
    (C10_distribute_from_stock_end (newGameState createDeck) (by decide) rfl).1.1⟩

-- ═══════════════════════════════════════════════════════════════════
-- Claim C1: win detection raising the terminal flag
-- ═══════════════════════════════════════════════════════════════════

/-- Claim C1 counterexample: a reachable state in which auto-placing the final
Excuse produces a winning state whose terminal flag is still `false` — the
Excuse-storing branch never runs the win detector. -/
theorem C1_counterexample :
    Reachable preWinState
    ∧ preWinState.excuseSlot = none
    ∧ (autoPlace 0 preWinState).excuseSlot ≠ none
    ∧ isWin (autoPlace 0 preWinState) = true
    ∧ (autoPlace 0 preWinState).gameOver = false :=
  ⟨⟨winDeck, winOps, by decide, rfl⟩, by decide, by decide, by decide, by decide⟩

/-- Claim C1 as amended: on a state not yet satisfying the win condition, a
foundation move, a merge, or an auto-place that does not store the Excuse sets
the terminal flag whenever its result satisfies the win condition; the two
Excuse-storing paths do not run the win detector. -/
theorem C1_amended (s : GameState) (h : isWin s = false) :
    (∀ fi, isWin (clickFoundation fi s) = true → (clickFoundation fi s).gameOver = true)
    ∧ (isWin (mergeTrumps s) = true → (mergeTrumps s).gameOver = true)
    ∧ (∀ ci, (∀ c, (s.columns.getD ci []).getLast? = some c →
          ¬(c.kind = CardKind.excuse ∧ s.excuseSlot = none)) →
        isWin (autoPlace ci s) = true → (autoPlace ci s).gameOver = true) := by
  refine ⟨?_, ?_, ?_⟩
  · intro fi hw
    by_cases hgo : s.gameOver = true
    · rw [clickFoundation, if_pos hgo] at hw ⊢
      exact absurd (show isWin s = true from hw) (by simp [h])
    · rw [clickFoundation, if_neg hgo] at hw ⊢
      cases hsel : s.selected with
      | none =>
        try rw [hsel] at hw
        exact absurd (show isWin s = true from hw) (by simp [h])
      | some sel =>
        try rw [hsel] at hw
        try rw [hsel]
        try dsimp only at hw
        try dsimp only
        cases hc : getSelectedCard s with
        | none =>
          try rw [hc] at hw
          try rw [hc]
          exact absurd (show isWin s = true from hw) (by simp [h])
        | some card =>
          try rw [hc] at hw
          try rw [hc]
          try dsimp only at hw
          try dsimp only
          by_cases hcond : isSubSeqSel s = true
              ∨ ¬ canPlaceOnFoundation card fi s.foundations s.trumpsMerged = true
          · rw [if_pos hcond] at hw ⊢
            exact absurd (show isWin s = true from hw) (by simp [h])
          · rw [if_neg hcond] at hw ⊢
            try dsimp only at hw
            try dsimp only
            split
            · rfl
            · rename_i hwin
              rw [if_neg hwin] at hw
              exact absurd hw hwin
  · intro hw
    by_cases hguard : s.gameOver = true ∨ ¬ canMergeTrumps s = true
    · rw [mergeTrumps, if_pos hguard] at hw ⊢
      exact absurd (show isWin s = true from hw) (by simp [h])
    · rw [mergeTrumps, if_neg hguard] at hw ⊢
      try dsimp only at hw
      try dsimp only
      split
      · rfl
      · rename_i hwin
        rw [if_neg hwin] at hw
        exact absurd hw hwin
  · intro ci hexc hw
    by_cases hgo : s.gameOver = true
    · rw [autoPlace, if_pos hgo] at hw ⊢
      exact absurd (show isWin s = true from hw) (by simp [h])
    · rw [autoPlace, if_neg hgo] at hw ⊢
      try dsimp only at hw
      try dsimp only
      cases hlast : (s.columns.getD ci []).getLast? with
      | none =>
        try rw [hlast] at hw
        exact absurd (show isWin s = true from hw) (by simp [h])
      | some c =>
        try rw [hlast] at hw
        try rw [hlast]
        try dsimp only at hw
        try dsimp only
        rw [if_neg (hexc c hlast)] at hw ⊢
        cases hff : findFoundation c s.foundations s.trumpsMerged with
        | none =>
          try rw [hff] at hw
          exact absurd (show isWin s = true from hw) (by simp [h])
        | some fi =>
          try rw [hff] at hw
          try rw [hff]
          try dsimp only at hw
          try dsimp only
          split
          · rfl
          · rename_i hwin
            rw [if_neg hwin] at hw
            exact absurd hw hwin

/-- Witness for C1 (amended) at a concrete non-winning state. -/
theorem C1_amended_witness :
    isWin emptyState = false
    ∧ (isWin (mergeTrumps emptyState) = true → (mergeTrumps emptyState).gameOver = true) :=
  ⟨by decide, (C1_amended emptyState (by decide)).2.1⟩

-- ═══════════════════════════════════════════════════════════════════
-- Claim C3: conservation of the 78 card ids
-- ═══════════════════════════════════════════════════════════════════

/-- the multiset of card ids partitioned across columns, foundations, the
Excuse slot and the stock. -/
def allIds (s : GameState) : Multiset String :=
  ((s.columns.flatten ++ s.foundations.flatten ++ s.excuseSlot.toList ++ s.stock).map
    Card.id : List String)

/-- starting from `winDeck`: place the hearts 4 onto the Excuse column, then
select the Excuse (lifting the two-card run) and target the Excuse slot. -/
def lossOps : List Op :=
  [.clickCard 10 0, .clickCard 0 0, .clickCard 0 0]

/-- the reachable state with the Excuse selected underneath the hearts 4. -/
def preLossState : GameState := applyOps lossOps (newGameState winDeck)

/-- Claim C3 refuted on the code: `clickExcuseSlot` removes the entire
selected run from its column but stores only the Excuse, so the hearts 4
stacked on top of the selected Excuse is dropped from the game — the 78-id
multiset shrinks to 77 ids on a reachable state. -/
theorem C3_conservation_violated :
    Reachable preLossState
    ∧ Multiset.card (allIds preLossState) = 78
    ∧ (allIds preLossState).Nodup
    ∧ Multiset.card (allIds (clickExcuseSlot preLossState)) = 77
    ∧ ¬ ("h4" ∈ allIds (clickExcuseSlot preLossState))
    ∧ allIds (clickExcuseSlot preLossState) ≠ allIds preLossState :=
  ⟨⟨winDeck, lossOps, by decide, rfl⟩, by decide, by decide, by decide, by decide, by decide⟩
